import Mathlib

/-!
Verification of the staleness-gated collection pipeline of the
enhanced-flex-monitor repository (Go). The Go source in
internal/staleness/detector.go, internal/processor/file.go,
internal/alerts (concatenated into file.go in this snapshot) and
internal/metrics/collector.go is shallowly embedded: time instants and
durations are integers (Go nanoseconds), network and library effects
(HTTP requests, the gojq engine, strconv, logrus) are passed in as
explicit outcomes or oracle functions, and each Go function becomes a
pure Lean function of those inputs.
-/

namespace O11y

/-- Result mirrors staleness.Result (internal/staleness/detector.go lines
29-39): the outcome of one staleness check. The Go time.Time and
time.Duration fields are integers (nanoseconds); the error field is an
optional message. -/
structure Result where
  IsStale : Bool
  FileAge : Int
  LastModified : Int
  Threshold : Int
  Behavior : String
  ShouldSkip : Bool
  ShouldAlert : Bool
  Error : Option String
  deriving Repr, DecidableEq

/-- Outcome of URL validation followed by the HEAD probe
(Detector.validateURL and Detector.getLastModified): either a failure
message or a resolved last-modified instant. -/
inductive ProbeOutcome where
  | failure (msg : String)
  | modTime (t : Int)
  deriving Repr, DecidableEq

/-- Evaluation core of Detector.CheckStaleness (detector.go lines 63-95),
run when the probe has produced a modification time: compute the file
age against the current instant, compare it strictly to the threshold,
and set the behavior flags via the switch on the behavior string. -/
def CheckStalenessEval (now lastModified threshold : Int) (behavior : String) : Result :=
  let fileAge := now - lastModified
  let isStale := decide (fileAge > threshold)
  let r0 : Result := {
    IsStale := isStale, FileAge := fileAge, LastModified := lastModified,
    Threshold := threshold, Behavior := behavior,
    ShouldSkip := false, ShouldAlert := false, Error := none }
  if isStale then
    if behavior == "skip" then { r0 with ShouldSkip := true }
    else if behavior == "alert" then { r0 with ShouldAlert := true }
    else r0
  else r0

/-- Detector.CheckStaleness (detector.go lines 42-96) as a function of the
probe outcome: a validation or HEAD failure yields a Result carrying the
error and default flags; otherwise the evaluation core runs. -/
def CheckStaleness (probe : ProbeOutcome) (now threshold : Int) (behavior : String) : Result :=
  match probe with
  | .failure msg =>
    { IsStale := false, FileAge := 0, LastModified := 0,
      Threshold := threshold, Behavior := behavior,
      ShouldSkip := false, ShouldAlert := false,
      Error := some msg }
  | .modTime t => CheckStalenessEval now t threshold behavior

/-- C1: the staleness evaluation satisfies isStale = (age > threshold)
with age = now - modificationTime and equality counted as fresh, and the
behavior flags equal the matrix skip/alert/continue gated on isStale:
ShouldSkip holds exactly for a stale check with behavior skip,
ShouldAlert exactly for a stale check with behavior alert, so a fresh
check or behavior continue leaves both flags false. -/
theorem checkStaleness_matrix (now lastModified threshold : Int) (behavior : String) :
    ((CheckStalenessEval now lastModified threshold behavior).IsStale
        = decide (now - lastModified > threshold))
    ∧ ((CheckStalenessEval (lastModified + threshold) lastModified threshold behavior).IsStale
        = false)
    ∧ ((CheckStalenessEval now lastModified threshold behavior).ShouldSkip
        = ((CheckStalenessEval now lastModified threshold behavior).IsStale
            && behavior == "skip"))
    ∧ ((CheckStalenessEval now lastModified threshold behavior).ShouldAlert
        = ((CheckStalenessEval now lastModified threshold behavior).IsStale
            && behavior == "alert")) := by
  refine ⟨?_, ?_, ?_, ?_⟩ <;>
    by_cases h2 : behavior = "skip" <;>
    by_cases h3 : behavior = "alert" <;>
    simp only [CheckStalenessEval] <;>
    split_ifs with h <;>
    simp_all

/-- Response to the HEAD request issued by Detector.getLastModified
(detector.go lines 99-156): the status code and the optional
Last-Modified header value. -/
structure HeadResponse where
  StatusCode : Nat
  LastModifiedHeader : Option String
  deriving Repr, DecidableEq

/-- Detector.getLastModified (detector.go lines 99-156) as a function of
the HEAD response. The parse oracle stands for the chain of time.Parse
calls over RFC1123 and the alternative formats; now is the instant
time.Now() returns at the fallback. A non-OK status fails; a missing
Last-Modified header resolves to now; an unparseable header fails. -/
def getLastModified (parse : String → Option Int) (now : Int) (resp : HeadResponse) :
    Except String Int :=
  if resp.StatusCode ≠ 200 then
    .error "HTTP request failed with non-OK status"
  else
    match resp.LastModifiedHeader with
    | none => .ok now
    | some s =>
      match parse s with
      | some t => .ok t
      | none => .error "failed to parse Last-Modified header"

/-- C5: when the HEAD request succeeds with status 200 but carries no
Last-Modified header, getLastModified resolves the modification time to
the current instant, so the staleness evaluation at that instant
measures age zero and, for any nonnegative threshold, judges the source
fresh. -/
theorem getLastModified_fallback_fresh (parse : String → Option Int) (now threshold : Int)
    (behavior : String) (resp : HeadResponse)
    (hs : resp.StatusCode = 200) (hh : resp.LastModifiedHeader = none)
    (ht : 0 ≤ threshold) :
    getLastModified parse now resp = .ok now
    ∧ (CheckStalenessEval now now threshold behavior).FileAge = 0
    ∧ (CheckStalenessEval now now threshold behavior).IsStale = false := by
  refine ⟨?_, ?_, ?_⟩
  · simp [getLastModified, hs, hh]
  · simp only [CheckStalenessEval]
    split_ifs <;> simp
  · have h0 : (decide (now - now > threshold)) = false := by
      simp only [decide_eq_false_iff_not]
      omega
    simp only [CheckStalenessEval]
    split_ifs <;> simp_all <;> omega

/-- Witness for getLastModified_fallback_fresh at a concrete response and
threshold. -/
theorem getLastModified_fallback_fresh_witness :
    getLastModified (fun _ => none) 5 ⟨200, none⟩ = .ok 5
    ∧ (CheckStalenessEval 5 5 3 "skip").FileAge = 0
    ∧ (CheckStalenessEval 5 5 3 "skip").IsStale = false :=
  getLastModified_fallback_fresh (fun _ => none) 5 3 "skip" ⟨200, none⟩ rfl rfl (by decide)

/-- Scalar or tree value as produced by encoding/json, strconv coercion
and the jq engine: the dynamic interface value of the Go code as a
closed variant. Floating-point payloads are kept as their raw text since
float arithmetic is never performed on them. -/
inductive Value where
  | null
  | b (x : Bool)
  | num (raw : String)
  | i (n : Int)
  | s (x : String)
  | arr (xs : List Value)
  | obj (fields : List (String × Value))

/-- Sample mirrors the Go map from attribute name to value
(map from string to interface). Modeled as an association list in which
a later entry shadows an earlier one with the same key. -/
abbrev Sample : Type := List (String × Value)

/-- StalenessConfig mirrors config.StalenessConfig
(internal/config/config.go): the per-source staleness policy. -/
structure StalenessConfig where
  Enabled : Bool
  Threshold : Int
  Behavior : String
  CheckURL : String

/-- APIConfig mirrors config.APIConfig (internal/config/config.go): one
configured source. -/
structure APIConfig where
  Name : String
  URL : String
  FallbackURL : String
  Format : String
  JQ : String
  Attributes : List (String × String)
  EventType : String
  Staleness : StalenessConfig
  Enabled : Bool

/-- ProcessResult mirrors processor.ProcessResult (file.go lines 41-49);
the Duration field is real elapsed time and is not modeled. -/
structure ProcessResult where
  APIName : String
  RecordCount : Nat
  IsStale : Bool
  HasError : Bool
  Error : Option String
  Samples : List Sample

/-- Effect trace of one ProcessAPI run: whether fetchData ran, whether a
format processor (processJSON or processCSV) ran, and the events handed
to the metrics collector by sendSamplesToNewRelic. -/
structure Trace where
  fetchCalled : Bool
  transformCalled : Bool
  emitted : List (String × Sample)

/-- FileProcessor.ProcessAPI (file.go lines 52-136) as a function of the
staleness probe outcome, the fetchData outcome, and a per-format
transform oracle standing for processJSON and processCSV (modeled in
full separately). Paired with the effect trace of the run. -/
def ProcessAPI (api : APIConfig) (probe : ProbeOutcome) (now : Int)
    (fetchResult : Except String String)
    (transform : String → String → Except String (List Sample)) :
    ProcessResult × Trace :=
  let r0 : ProcessResult :=
    { APIName := api.Name, RecordCount := 0, IsStale := false,
      HasError := false, Error := none, Samples := [] }
  let gate : (ProcessResult × Trace) ⊕ ProcessResult :=
    if api.Staleness.Enabled then
      let st := CheckStaleness probe now api.Staleness.Threshold api.Staleness.Behavior
      let r1 := { r0 with IsStale := st.IsStale }
      match st.Error with
      | some e =>
        Sum.inl ({ r1 with
                   HasError := true,
                   Error := some ("staleness check failed: " ++ e) },
                 { fetchCalled := false, transformCalled := false, emitted := [] })
      | none =>
        if r1.IsStale && st.ShouldSkip then
          Sum.inl (r1, { fetchCalled := false, transformCalled := false, emitted := [] })
        else Sum.inr r1
    else Sum.inr r0
  match gate with
  | Sum.inl done => done
  | Sum.inr r1 =>
    match fetchResult with
    | .error e =>
      ({ r1 with HasError := true, Error := some ("failed to fetch data: " ++ e) },
       { fetchCalled := true, transformCalled := false, emitted := [] })
    | .ok data =>
      let fmtTag := api.Format.toLower
      let processed : Except String (List Sample) :=
        if fmtTag == "json" then transform "json" data
        else if fmtTag == "csv" then transform "csv" data
        else .error ("unsupported format: " ++ api.Format)
      match processed with
      | .error e =>
        ({ r1 with HasError := true, Error := some ("failed to process data: " ++ e) },
         { fetchCalled := true,
           transformCalled := (fmtTag == "json" || fmtTag == "csv"),
           emitted := [] })
      | .ok samples =>
        ({ r1 with Samples := samples, RecordCount := samples.length },
         { fetchCalled := true, transformCalled := true,
           emitted := samples.map (fun smp => (api.EventType, smp)) })

/-- Concrete source configuration used by witnesses: staleness enabled
with threshold 5 and behavior skip. -/
def apiW : APIConfig :=
  { Name := "api1", URL := "http://example/data", FallbackURL := "",
    Format := "json", JQ := "", Attributes := [], EventType := "Ev",
    Staleness := { Enabled := true, Threshold := 5, Behavior := "skip",
                   CheckURL := "http://example/check" },
    Enabled := true }

/-- C2: for a source whose staleness policy is enabled, a probe failure
makes ProcessAPI return an error outcome with no fetch, no transform and
no record emission; and when the evaluation decides skip (stale data,
behavior skip), ProcessAPI returns a record count of zero, no error, and
no fetch or emission occurs. -/
theorem processAPI_probe_failure_and_skip
    (api : APIConfig) (now t : Int) (msg : String)
    (fetchResult : Except String String)
    (transform : String → String → Except String (List Sample))
    (hEn : api.Staleness.Enabled = true)
    (hb : api.Staleness.Behavior = "skip")
    (hstale : api.Staleness.Threshold < now - t) :
    ((ProcessAPI api (.failure msg) now fetchResult transform).1.HasError = true)
    ∧ ((ProcessAPI api (.failure msg) now fetchResult transform).1.Error.isSome = true)
    ∧ ((ProcessAPI api (.failure msg) now fetchResult transform).2.fetchCalled = false)
    ∧ ((ProcessAPI api (.failure msg) now fetchResult transform).2.transformCalled = false)
    ∧ ((ProcessAPI api (.failure msg) now fetchResult transform).2.emitted = [])
    ∧ ((ProcessAPI api (.modTime t) now fetchResult transform).1.RecordCount = 0)
    ∧ ((ProcessAPI api (.modTime t) now fetchResult transform).1.HasError = false)
    ∧ ((ProcessAPI api (.modTime t) now fetchResult transform).2.fetchCalled = false)
    ∧ ((ProcessAPI api (.modTime t) now fetchResult transform).2.emitted = []) := by
  have hd : (decide (now - t > api.Staleness.Threshold)) = true := by
    simp only [decide_eq_true_eq]
    omega
  refine ⟨?_, ?_, ?_, ?_, ?_, ?_, ?_, ?_, ?_⟩ <;>
    simp [ProcessAPI, CheckStaleness, CheckStalenessEval, hEn, hb, hd]

/-- Witness for processAPI_probe_failure_and_skip at a concrete source
configuration, probe failure message and stale skip decision. -/
theorem processAPI_probe_failure_and_skip_witness :
    ((ProcessAPI apiW (.failure "head failed") 100 (.ok "") (fun _ _ => .ok [])).1.HasError
        = true)
    ∧ ((ProcessAPI apiW (.failure "head failed") 100 (.ok "")
          (fun _ _ => .ok [])).1.Error.isSome = true)
    ∧ ((ProcessAPI apiW (.failure "head failed") 100 (.ok "")
          (fun _ _ => .ok [])).2.fetchCalled = false)
    ∧ ((ProcessAPI apiW (.failure "head failed") 100 (.ok "")
          (fun _ _ => .ok [])).2.transformCalled = false)
    ∧ ((ProcessAPI apiW (.failure "head failed") 100 (.ok "")
          (fun _ _ => .ok [])).2.emitted = [])
    ∧ ((ProcessAPI apiW (.modTime 0) 100 (.ok "") (fun _ _ => .ok [])).1.RecordCount = 0)
    ∧ ((ProcessAPI apiW (.modTime 0) 100 (.ok "") (fun _ _ => .ok [])).1.HasError = false)
    ∧ ((ProcessAPI apiW (.modTime 0) 100 (.ok "") (fun _ _ => .ok [])).2.fetchCalled = false)
    ∧ ((ProcessAPI apiW (.modTime 0) 100 (.ok "") (fun _ _ => .ok [])).2.emitted = []) :=
  processAPI_probe_failure_and_skip apiW 100 0 "head failed" (.ok "")
    (fun _ _ => .ok []) rfl rfl (by decide)

/-- Success and parse outcomes of the strconv conversions used by
processCSV cell coercion (file.go lines 232-241): whether ParseFloat
succeeds on the text (its numeric payload is kept opaque), and the
results of ParseInt base 10 and ParseBool. -/
structure StrconvOracle where
  ParseFloatOk : String → Bool
  ParseInt : String → Option Int
  ParseBool : String → Option Bool

/-- Cell coercion of processCSV (file.go lines 230-241): try ParseFloat,
then ParseInt, then ParseBool, else keep the text. -/
def coerceValue (o : StrconvOracle) (value : String) : Value :=
  if o.ParseFloatOk value then .num value
  else
    match o.ParseInt value with
    | some n => .i n
    | none =>
      match o.ParseBool value with
      | some bv => .b bv
      | none => .s value

/-- FileProcessor.addCustomAttributes (file.go lines 313-323): merge the
static attributes of the source into the sample and add the processing
metadata entries. Later entries shadow earlier ones on lookup, matching
the overwriting Go map writes. -/
def addCustomAttributes (api : APIConfig) (nowUnix : Int) (sample : Sample) : Sample :=
  sample ++ api.Attributes.map (fun kv => (kv.1, Value.s kv.2))
    ++ [("api.name", Value.s api.Name),
        ("processed.timestamp", Value.i nowUnix),
        ("processor.version", Value.s "1.0.0")]

/-- One well-formed CSV data row turned into a sample (file.go lines
228-245): pair each header with the coerced cell below it, then add the
custom attributes. -/
def csvRow (o : StrconvOracle) (api : APIConfig) (nowUnix : Int)
    (headers : List String) (record : List String) : Sample :=
  addCustomAttributes api nowUnix
    ((headers.zip record).map (fun hv => (hv.1, coerceValue o hv.2)))

/-- Row loop of processCSV (file.go lines 218-247): a row whose column
count differs from the header count is skipped with a warning, every
other row becomes a sample. -/
def csvRows (o : StrconvOracle) (api : APIConfig) (nowUnix : Int)
    (headers : List String) : List (List String) → List Sample
  | [] => []
  | record :: rest =>
    if record.length = headers.length then
      csvRow o api nowUnix headers record :: csvRows o api nowUnix headers rest
    else
      csvRows o api nowUnix headers rest

/-- Field-count enforcement of encoding/csv with the default
FieldsPerRecord = 0, as left by csv.NewReader in processCSV (file.go
lines 201-203): the first record fixes the expected field count, and the
first later record with a different count makes the read fail with
ErrFieldCount (message: wrong number of fields). -/
def checkFieldCounts (n : Nat) : List (List String) → Except String Unit
  | [] => .ok ()
  | record :: rest =>
    if record.length = n then checkFieldCounts n rest
    else .error "wrong number of fields"

/-- Reader.ReadAll as called by processCSV (file.go line 205) on the
lexed record stream (comment and blank-line handling happen in the lexer
upstream of this model): with the default field-count enforcement it
returns the records only when every record has the field count of the
first one, and the error otherwise. -/
def csvReadAll (rows : List (List String)) : Except String (List (List String)) :=
  match rows with
  | [] => .ok []
  | first :: rest =>
    match checkFieldCounts first.length rest with
    | .ok _ => .ok (first :: rest)
    | .error e => .error e

/-- FileProcessor.processCSV (file.go lines 200-250) on the lexed record
stream: a ReadAll failure aborts the whole file with a parse error, an
empty table yields no samples, and otherwise the first record is the
header and the remaining records run through the row loop. -/
def processCSV (o : StrconvOracle) (api : APIConfig) (nowUnix : Int)
    (rows : List (List String)) : Except String (List Sample) :=
  match csvReadAll rows with
  | .error e => .error ("failed to parse CSV: " ++ e)
  | .ok records =>
    match records with
    | [] => .ok []
    | headers :: dataRows => .ok (csvRows o api nowUnix headers dataRows)

/-- Row loop characterization: the loop keeps exactly the rows whose
column count matches the header and converts each kept row. -/
theorem csvRows_eq_filter_map (o : StrconvOracle) (api : APIConfig) (nowUnix : Int)
    (headers : List String) (rows : List (List String)) :
    csvRows o api nowUnix headers rows
      = (rows.filter (fun r => r.length = headers.length)).map
          (csvRow o api nowUnix headers) := by
  induction rows with
  | nil => rfl
  | cons r rest ih =>
    by_cases h : r.length = headers.length <;> simp [csvRows, h, ih]

/-- Concrete strconv outcomes used in evaluating processCSV. -/
def strconvW : StrconvOracle :=
  { ParseFloatOk := fun s => s == "1.5" || s == "2" || s == "3",
    ParseInt := fun s => if s == "7" then some 7 else none,
    ParseBool := fun s => if s == "true" then some true else none }

/-- C6: the claimed skip-and-continue behavior does not hold of the
code. On a table whose header has three columns and whose first data row
has two, the field-count enforcement of csv.ReadAll rejects the whole
table, so processCSV aborts with a parse error and converts nothing —
the skip-with-warning row loop guarding exactly this case (file.go lines
218-226) is unreachable for it; run directly on the same records, that
loop would skip the malformed row and still convert the well-formed
one. -/
theorem processCSV_aborts_on_mismatched_row :
    (processCSV strconvW apiW 9 [["a", "b", "c"], ["1.5", "2"], ["1.5", "2", "3"]]
        = .error ("failed to parse CSV: " ++ "wrong number of fields"))
    ∧ (csvRows strconvW apiW 9 ["a", "b", "c"] [["1.5", "2"], ["1.5", "2", "3"]]
        = [csvRow strconvW apiW 9 ["a", "b", "c"] ["1.5", "2", "3"]]) :=
  ⟨rfl, rfl⟩

/-- One produced value of the gojq iterator in
FileProcessor.applyJQTransformation (file.go lines 264-275): either a
value or an execution error. -/
inductive JQOutput where
  | val (v : Value)
  | err (msg : String)

/-- FileProcessor.applyJQTransformation (file.go lines 253-278) as a
function of the stream the compiled jq program produces on the data: the
first produced error fails the call, otherwise only the first produced
value is returned, and an empty stream returns the input unchanged.
Query parse and compile failures are upstream of this loop and out of
scope of the modeled claims. -/
def applyJQTransformation (outputs : List JQOutput) (data : Value) : Except String Value :=
  match outputs with
  | [] => .ok data
  | .err m :: _ => .error ("JQ execution error: " ++ m)
  | .val v :: _ => .ok v

/-- Element conversion inside FileProcessor.convertToSamples (file.go
lines 285-296): a mapping element becomes a sample with the custom
attributes added, any other element is dropped. -/
def sampleOfItem (api : APIConfig) (nowUnix : Int) : Value → Option Sample
  | .obj fields => some (addCustomAttributes api nowUnix fields)
  | _ => none

/-- FileProcessor.convertToSamples (file.go lines 281-310): an array
keeps exactly its mapping elements, a single mapping becomes one sample,
and every other value is an unsupported-type error. -/
def convertToSamples (api : APIConfig) (nowUnix : Int) (data : Value) :
    Except String (List Sample) :=
  match data with
  | .arr items => .ok (items.filterMap (sampleOfItem api nowUnix))
  | .obj fields => .ok [addCustomAttributes api nowUnix fields]
  | _ => .error "unsupported data type for conversion"

/-- C7: with a filter expression only the first produced value is kept
(an execution error fails, an empty stream keeps the input), and the
normalization to records maps a single mapping to one record, a sequence
to one record per mapping element with every non-mapping element
dropped, and any other value to a format error. -/
theorem applyJQ_first_and_convert (outputs : List JQOutput) (data v : Value) (m : String)
    (fields : List (String × Value)) (items xs : List Value)
    (api : APIConfig) (nowUnix : Int) (x : Bool) (raw txt : String) (k : Int) :
    (applyJQTransformation (.val v :: outputs) data = .ok v)
    ∧ (applyJQTransformation (.err m :: outputs) data
        = .error ("JQ execution error: " ++ m))
    ∧ (applyJQTransformation [] data = .ok data)
    ∧ (convertToSamples api nowUnix (.obj fields)
        = .ok [addCustomAttributes api nowUnix fields])
    ∧ (convertToSamples api nowUnix (.arr items)
        = .ok (items.filterMap (sampleOfItem api nowUnix)))
    ∧ (sampleOfItem api nowUnix (.obj fields)
        = some (addCustomAttributes api nowUnix fields))
    ∧ (sampleOfItem api nowUnix .null = none)
    ∧ (sampleOfItem api nowUnix (.b x) = none)
    ∧ (sampleOfItem api nowUnix (.num raw) = none)
    ∧ (sampleOfItem api nowUnix (.i k) = none)
    ∧ (sampleOfItem api nowUnix (.s txt) = none)
    ∧ (sampleOfItem api nowUnix (.arr xs) = none)
    ∧ (convertToSamples api nowUnix .null = .error "unsupported data type for conversion")
    ∧ (convertToSamples api nowUnix (.b x) = .error "unsupported data type for conversion")
    ∧ (convertToSamples api nowUnix (.num raw)
        = .error "unsupported data type for conversion")
    ∧ (convertToSamples api nowUnix (.i k) = .error "unsupported data type for conversion")
    ∧ (convertToSamples api nowUnix (.s txt)
        = .error "unsupported data type for conversion") :=
  ⟨rfl, rfl, rfl, rfl, rfl, rfl, rfl, rfl, rfl, rfl, rfl, rfl, rfl, rfl, rfl, rfl, rfl⟩

/-- AlertChannel mirrors config.AlertChannel (internal/config/config.go);
the Go field Type is named ChannelType here because Type is a Lean
keyword. -/
structure AlertChannel where
  ChannelType : String
  Name : String
  Enabled : Bool
  Settings : List (String × String)

/-- Channel loop of Manager.SendAlert (file.go lines 443-462 of the
alerts package part): walk the channels in order, skip disabled ones,
attempt delivery on each enabled one, and collect a message for each
failure; the deliver oracle stands for sendToChannel. Returns the
collected error messages and the channels on which delivery was
attempted, both in iteration order. -/
def sendAlertLoop (deliver : AlertChannel → Except String Unit) :
    List AlertChannel → List String × List AlertChannel
  | [] => ([], [])
  | ch :: rest =>
    let tail := sendAlertLoop deliver rest
    if ch.Enabled then
      match deliver ch with
      | .ok _ => (tail.1, ch :: tail.2)
      | .error e => (("channel " ++ ch.Name ++ ": " ++ e) :: tail.1, ch :: tail.2)
    else tail

/-- Manager.SendAlert (file.go lines 437-469 of the alerts package
part): no configured channels is a successful no-op; otherwise the
channel loop runs and the call fails exactly when the collected error
list is non-empty, carrying every per-channel error. Paired with the
list of channels on which delivery was attempted. -/
def SendAlert (deliver : AlertChannel → Except String Unit)
    (channels : List AlertChannel) : Except (List String) Unit × List AlertChannel :=
  if channels.isEmpty then (.ok (), [])
  else
    let loop := sendAlertLoop deliver channels
    if loop.1.isEmpty then (.ok (), loop.2) else (.error loop.1, loop.2)

/-- Failure message an enabled channel contributes to the aggregate
error of SendAlert, if its delivery fails. -/
def channelFailMsg (deliver : AlertChannel → Except String Unit)
    (ch : AlertChannel) : Option String :=
  match deliver ch with
  | .ok _ => none
  | .error e => some ("channel " ++ ch.Name ++ ": " ++ e)

/-- Channel loop characterization: delivery is attempted on exactly the
enabled channels in order, and the collected errors are exactly the
failure messages of the enabled channels whose delivery fails. -/
theorem sendAlertLoop_spec (deliver : AlertChannel → Except String Unit)
    (channels : List AlertChannel) :
    (sendAlertLoop deliver channels).2 = channels.filter (fun ch => ch.Enabled)
    ∧ (sendAlertLoop deliver channels).1
        = (channels.filter (fun ch => ch.Enabled)).filterMap (channelFailMsg deliver) := by
  induction channels with
  | nil => exact ⟨rfl, rfl⟩
  | cons ch rest ih =>
    by_cases h : ch.Enabled = true
    · cases hd : deliver ch <;>
        simp [sendAlertLoop, h, hd, channelFailMsg, ih.1, ih.2]
    · simp at h
      simp [sendAlertLoop, h, ih.1, ih.2]

/-- C8: SendAlert attempts delivery on exactly the enabled channels (a
disabled channel is skipped; one failure never prevents the remaining
attempts), returns success when zero channels are enabled (in particular
when none are configured), and fails if and only if at least one enabled
channel failed, with the aggregate error listing every per-channel
failure message. -/
theorem sendAlert_independent_channels (deliver : AlertChannel → Except String Unit)
    (channels : List AlertChannel) :
    ((SendAlert deliver channels).2 = channels.filter (fun ch => ch.Enabled))
    ∧ ((SendAlert deliver channels).1
        = if ((channels.filter (fun ch => ch.Enabled)).filterMap
              (channelFailMsg deliver)).isEmpty
          then .ok ()
          else .error ((channels.filter (fun ch => ch.Enabled)).filterMap
              (channelFailMsg deliver)))
    ∧ ((SendAlert deliver (channels.filter (fun ch => !ch.Enabled))).1 = .ok ()) := by
  have hspec := sendAlertLoop_spec deliver channels
  refine ⟨?_, ?_, ?_⟩
  · by_cases h : channels.isEmpty
    · rw [List.isEmpty_iff] at h
      subst h
      rfl
    · simp only [SendAlert, h, if_false, Bool.false_eq_true, hspec.1]
      split_ifs <;> rfl
  · by_cases h : channels.isEmpty
    · rw [List.isEmpty_iff] at h
      subst h
      rfl
    · simp only [SendAlert, h, if_false, Bool.false_eq_true, hspec.2]
      by_cases he : ((channels.filter (fun ch => ch.Enabled)).filterMap
          (channelFailMsg deliver)).isEmpty <;>
        simp [he]
  · have hspec2 := sendAlertLoop_spec deliver (channels.filter (fun ch => !ch.Enabled))
    by_cases h : (channels.filter (fun ch => !ch.Enabled)).isEmpty
    · simp [SendAlert, h]
    · have hnone : (channels.filter (fun ch => !ch.Enabled)).filter
          (fun ch => ch.Enabled) = [] := by
        rw [List.filter_filter]
        apply List.filter_eq_nil_iff.mpr
        intro a _
        simp
      simp [SendAlert, h, hspec2.2, hnone]

/-- Concrete channels for the SendAlert witness: a failing enabled
webhook, a succeeding enabled log channel, and a disabled channel. -/
def channelsW : List AlertChannel :=
  [{ ChannelType := "webhook", Name := "hook", Enabled := true,
     Settings := [("url", "http://example/hook")] },
   { ChannelType := "log", Name := "logchan", Enabled := true, Settings := [] },
   { ChannelType := "slack", Name := "off", Enabled := false, Settings := [] }]

/-- Delivery outcomes for the SendAlert witness: the webhook channel
fails, every other channel succeeds. -/
def deliverW : AlertChannel → Except String Unit :=
  fun ch => if ch.Name == "hook" then .error "status 500" else .ok ()

/-- Witness for sendAlert_independent_channels: with one failing webhook
and one working log channel, both enabled channels are attempted, the
call fails, and the aggregate error names the webhook channel. -/
theorem sendAlert_independent_channels_witness :
    ((SendAlert deliverW channelsW).2 = channelsW.filter (fun ch => ch.Enabled))
    ∧ ((SendAlert deliverW channelsW).1
        = if ((channelsW.filter (fun ch => ch.Enabled)).filterMap
              (channelFailMsg deliverW)).isEmpty
          then .ok ()
          else .error ((channelsW.filter (fun ch => ch.Enabled)).filterMap
              (channelFailMsg deliverW)))
    ∧ ((SendAlert deliverW (channelsW.filter (fun ch => !ch.Enabled))).1 = .ok ()) :=
  sendAlert_independent_channels deliverW channelsW

/-- Collector.SendBatch (internal/metrics/collector.go lines 263-279):
send the event batch, then unconditionally send the metric batch, and
aggregate the failures; the two submission outcomes are the results of
SendEvents and SendMetrics. -/
def SendBatch (evRes mtRes : Except String Unit) : Except (List String) Unit :=
  let errors :=
    (match evRes with
     | .ok _ => []
     | .error e => ["events: " ++ e])
    ++ (match mtRes with
        | .ok _ => []
        | .error e => ["metrics: " ++ e])
  if errors.isEmpty then .ok () else .error errors

/-- C9: event submission and metric submission are aggregated
independently by SendBatch: it returns nil exactly when both succeed, a
single failure is reported without suppressing the other submission, and
when both fail both failures appear in the aggregate error. -/
theorem sendBatch_independent (a b : String) :
    SendBatch (.ok ()) (.ok ()) = .ok ()
    ∧ SendBatch (.error a) (.ok ()) = .error ["events: " ++ a]
    ∧ SendBatch (.ok ()) (.error b) = .error ["metrics: " ++ b]
    ∧ SendBatch (.error a) (.error b) = .error ["events: " ++ a, "metrics: " ++ b] :=
  ⟨rfl, rfl, rfl, rfl⟩

/-- Per-cycle environment of ProcessAPIs: the staleness probe outcome,
current instant, fetch outcome and per-format transform outcome for each
source, fixed for the cycle. -/
structure Env where
  probe : APIConfig → ProbeOutcome
  now : Int
  fetch : APIConfig → Except String String
  transform : APIConfig → String → String → Except String (List Sample)

/-- Empty result a worker sends for a disabled source (file.go lines
360-364): only the name is set, all other fields are Go zero values. -/
def emptyResult (name : String) : ProcessResult :=
  { APIName := name, RecordCount := 0, IsStale := false, HasError := false,
    Error := none, Samples := [] }

/-- Result one worker produces for one source in the loop body of
ProcessAPIs (file.go lines 354-366): the full per-source pipeline for an
enabled source, the empty result otherwise. -/
def outcome (env : Env) (api : APIConfig) : ProcessResult :=
  if api.Enabled then
    (ProcessAPI api (env.probe api) env.now (env.fetch api) (env.transform api)).1
  else emptyResult api.Name

/-- Clamp at the top of ProcessAPIs (file.go lines 345-347): a
concurrency value of zero or less becomes the default of 4. -/
def effectiveMaxWorkers (maxWorkers : Int) : Int :=
  if maxWorkers ≤ 0 then 4 else maxWorkers

/-- State of the worker pool of ProcessAPIs (file.go lines 344-383): the
jobs not yet taken from the channel, one slot per spawned worker holding
the source it is currently processing, and the results collected so
far. -/
structure PoolState where
  queue : List APIConfig
  workers : List (Option APIConfig)
  results : List ProcessResult

/-- Initial pool state: every source queued on the jobs channel, every
one of the n spawned workers idle, no results. -/
def initPool (apis : List APIConfig) (n : Nat) : PoolState :=
  { queue := apis, workers := List.replicate n none, results := [] }

/-- Interleaving semantics of the pool: an idle worker receives the next
job from the channel, or a busy worker finishes its source and sends the
outcome to the results channel. -/
inductive PoolStep (env : Env) : PoolState → PoolState → Prop where
  | take (s : PoolState) (i : Nat) (api : APIConfig) (rest : List APIConfig)
      (hq : s.queue = api :: rest) (hw : s.workers.get? i = some none) :
      PoolStep env s { queue := rest, workers := s.workers.set i (some api),
                       results := s.results }
  | finish (s : PoolState) (i : Nat) (api : APIConfig)
      (hw : s.workers.get? i = some (some api)) :
      PoolStep env s { queue := s.queue, workers := s.workers.set i none,
                       results := outcome env api :: s.results }

/-- Pool states reachable during one ProcessAPIs cycle over the given
sources with n workers. -/
inductive PoolReach (env : Env) (apis : List APIConfig) (n : Nat) : PoolState → Prop where
  | init : PoolReach env apis n (initPool apis n)
  | step (s s' : PoolState) (hs : PoolReach env apis n s)
      (hstep : PoolStep env s s') : PoolReach env apis n s'

/-- Number of per-source pipeline executions currently in flight: the
busy workers. -/
def inFlight (s : PoolState) : Nat := (s.workers.filterMap id).length

/-- Sources not yet fully processed: still queued or held by a busy
worker. -/
def pending (s : PoolState) : List APIConfig := s.queue ++ s.workers.filterMap id

/-- Replacing an empty slot by a job adds that job to the busy multiset. -/
theorem filterMap_id_set_some {α : Type} (l : List (Option α)) (i : Nat) (a : α)
    (h : l.get? i = some none) :
    ((l.set i (some a)).filterMap id).Perm (a :: l.filterMap id) := by
  induction l generalizing i with
  | nil => simp at h
  | cons hd tl ih =>
    cases i with
    | zero =>
      simp only [List.get?_cons_zero, Option.some.injEq] at h
      subst h
      simp
    | succ j =>
      simp only [List.get?_cons_succ] at h
      have hperm := ih j h
      cases hd with
      | none => simpa using hperm
      | some b =>
        simp only [List.set_cons_succ, List.filterMap_cons, id]
        exact (hperm.cons b).trans (List.Perm.swap a b _)

/-- Clearing a slot that holds a job removes that job from the busy
multiset. -/
theorem filterMap_id_set_none {α : Type} (l : List (Option α)) (i : Nat) (a : α)
    (h : l.get? i = some (some a)) :
    (l.filterMap id).Perm (a :: (l.set i none).filterMap id) := by
  induction l generalizing i with
  | nil => simp at h
  | cons hd tl ih =>
    cases i with
    | zero =>
      simp only [List.get?_cons_zero, Option.some.injEq] at h
      subst h
      simp
    | succ j =>
      simp only [List.get?_cons_succ] at h
      have hperm := ih j h
      cases hd with
      | none => simpa using hperm
      | some b =>
        simp only [List.set_cons_succ, List.filterMap_cons, id]
        exact (hperm.cons b).trans (List.Perm.swap a b _)

/-- The busy jobs of a row of idle workers form the empty list. -/
theorem filterMap_id_replicate_none {α : Type} (n : Nat) :
    ((List.replicate n (none : Option α)).filterMap id) = [] := by
  induction n with
  | zero => rfl
  | succ k ih => simp [List.replicate_succ, List.filterMap_cons, ih]

/-- The busy jobs are never more numerous than the worker slots. -/
theorem length_filterMap_id_le {α : Type} (l : List (Option α)) :
    (l.filterMap id).length ≤ l.length := by
  induction l with
  | nil => simp
  | cons hd tl ih =>
    cases hd <;> simp [List.filterMap_cons] <;> omega

/-- The pool never changes the number of worker slots. -/
theorem poolReach_workers_length (env : Env) (apis : List APIConfig) (n : Nat)
    (s : PoolState) (h : PoolReach env apis n s) : s.workers.length = n := by
  induction h with
  | init => simp [initPool]
  | step s s' hs hstep ih =>
    cases hstep with
    | take i api rest hq hw => simpa [List.length_set] using ih
    | finish i api hw => simpa [List.length_set] using ih

/-- Conservation: at every reachable state, the outcomes of the pending
sources together with the collected results are a permutation of the
outcomes of all sources. -/
theorem poolReach_perm (env : Env) (apis : List APIConfig) (n : Nat)
    (s : PoolState) (h : PoolReach env apis n s) :
    ((pending s).map (outcome env) ++ s.results).Perm (apis.map (outcome env)) := by
  induction h with
  | init => simp [pending, initPool, filterMap_id_replicate_none]
  | step s s' hs hstep ih =>
    cases hstep with
    | take i api rest hq hw =>
      have h1 := filterMap_id_set_some s.workers i api hw
      have h2 : (pending ⟨rest, s.workers.set i (some api), s.results⟩).Perm (pending s) := by
        simp only [pending, hq]
        exact (List.Perm.append_left rest h1).trans List.perm_middle
      exact ((h2.map (outcome env)).append_right s.results).trans ih
    | finish i api hw =>
      have h1 := filterMap_id_set_none s.workers i api hw
      have h2 : (pending s).Perm
          (api :: (s.queue ++ (s.workers.set i none).filterMap id)) :=
        (List.Perm.append_left s.queue h1).trans List.perm_middle
      refine List.Perm.trans ?_ ih
      have h3 : ((s.queue ++ (s.workers.set i none).filterMap id).map (outcome env)
            ++ (outcome env api :: s.results)).Perm
          (outcome env api :: ((s.queue ++ (s.workers.set i none).filterMap id).map
              (outcome env) ++ s.results)) := List.perm_middle
      exact h3.trans ((h2.map (outcome env)).append_right s.results).symm

/-- C3: at the end of a cycle (empty job queue, no busy worker) the pool
has produced exactly one outcome per input source — len(sources)
outcomes, a permutation of the per-source outcomes, independent of the
concurrency value used; the outcome of a disabled source is the empty outcome
(zero records, no error) produced without the per-source pipeline; and
the clamp maps every concurrency value to at least 1, sending values of
zero or below to the default 4. -/
theorem processAPIs_outcomes (env : Env) (apis : List APIConfig) (w : Int) (s : PoolState)
    (h : PoolReach env apis (effectiveMaxWorkers w).toNat s)
    (hq : s.queue = []) (hidle : inFlight s = 0) :
    s.results.length = apis.length
    ∧ s.results.Perm (apis.map (outcome env))
    ∧ (∀ api : APIConfig, api.Enabled = false → outcome env api = emptyResult api.Name)
    ∧ (∀ m : Int, 1 ≤ effectiveMaxWorkers m)
    ∧ (∀ m : Int, m ≤ 0 → effectiveMaxWorkers m = 4) := by
  have hperm := poolReach_perm env apis ((effectiveMaxWorkers w).toNat) s h
  have hfm : s.workers.filterMap id = [] := List.length_eq_zero.mp hidle
  rw [pending, hq, hfm] at hperm
  simp only [List.append_nil, List.map_nil, List.nil_append] at hperm
  refine ⟨hperm.length_eq.trans (List.length_map apis (outcome env)), hperm, ?_, ?_, ?_⟩
  · intro api hap
    simp [outcome, hap]
  · intro m
    unfold effectiveMaxWorkers
    split_ifs <;> omega
  · intro m hm
    simp [effectiveMaxWorkers, hm]

/-- Concrete cycle environment used by the pool witnesses: the probe
reports modification time 0 at instant 100, fetch and transform
succeed trivially. -/
def envW : Env :=
  { probe := fun _ => .modTime 0, now := 100,
    fetch := fun _ => .ok "", transform := fun _ _ _ => .ok [] }

/-- Terminal pool state of a concrete two-worker cycle over the single
source apiW: worker 0 took the job and finished it. -/
def poolFinalW : PoolState :=
  { queue := [],
    workers := ((List.replicate (effectiveMaxWorkers 2).toNat
        (none : Option APIConfig)).set 0 (some apiW)).set 0 none,
    results := [outcome envW apiW] }

/-- Witness for processAPIs_outcomes on a concrete completed two-worker
cycle over one source. -/
theorem processAPIs_outcomes_witness :
    poolFinalW.results.length = [apiW].length
    ∧ poolFinalW.results.Perm ([apiW].map (outcome envW))
    ∧ (∀ api : APIConfig, api.Enabled = false → outcome envW api = emptyResult api.Name)
    ∧ (∀ m : Int, 1 ≤ effectiveMaxWorkers m)
    ∧ (∀ m : Int, m ≤ 0 → effectiveMaxWorkers m = 4) :=
  processAPIs_outcomes envW [apiW] 2 poolFinalW
    (PoolReach.step _ _ (PoolReach.step _ _ PoolReach.init
        (PoolStep.take _ 0 apiW [] rfl rfl))
      (PoolStep.finish _ 0 apiW rfl))
    rfl rfl

/-- C4: at every reachable state of a cycle, the number of in-flight
per-source pipeline executions never exceeds the configured (clamped)
concurrency, because the pool spawns exactly that many workers and each
worker holds at most one source at a time. -/
theorem pool_inflight_bounded (env : Env) (apis : List APIConfig) (w : Int) (s : PoolState)
    (h : PoolReach env apis (effectiveMaxWorkers w).toNat s) :
    inFlight s ≤ (effectiveMaxWorkers w).toNat := by
  have hlen := poolReach_workers_length env apis ((effectiveMaxWorkers w).toNat) s h
  have hfm := length_filterMap_id_le s.workers
  unfold inFlight
  omega

/-- Witness for pool_inflight_bounded at the initial state of a concrete
three-worker cycle. -/
theorem pool_inflight_bounded_witness :
    inFlight (initPool [apiW] (effectiveMaxWorkers 3).toNat)
      ≤ (effectiveMaxWorkers 3).toNat :=
  pool_inflight_bounded envW [apiW] 3 (initPool [apiW] (effectiveMaxWorkers 3).toNat)
    PoolReach.init

/-- Logging call Manager.sendLog selects (file.go lines 628-641 of the
alerts package part): one logrus entry method per configured level. -/
inductive LogAction where
  | debugLevel
  | infoLevel
  | warnLevel
  | errorLevel
  | fatalLevel
  deriving Repr, DecidableEq

/-- Indexing a Go string map returns the zero value for a missing key:
the empty string. -/
def lookupSetting (settings : List (String × String)) (key : String) : String :=
  match settings.find? (fun kv => kv.1 == key) with
  | some kv => kv.2
  | none => ""

/-- Whether the logrus entry method terminates the process: Entry.Fatal
logs and then calls os.Exit(1) (documented logrus behavior), every other
level returns to the caller. -/
def logActionTerminates : LogAction → Bool
  | .fatalLevel => true
  | _ => false

/-- Manager.sendLog (file.go lines 612-644 of the alerts package part):
read the configured level (empty defaults to warn), map it onto a logrus
entry method (unrecognized levels default to warn), and return nil. The
first component is the selected logrus method; the second is the value
the function returns when control comes back to it. -/
def sendLog (channel : AlertChannel) : LogAction × Except String Unit :=
  let level0 := lookupSetting channel.Settings "level"
  let level := if level0 == "" then "warn" else level0
  let act : LogAction :=
    if level == "debug" then .debugLevel
    else if level == "info" then .infoLevel
    else if level == "warn" then .warnLevel
    else if level == "error" then .errorLevel
    else if level == "fatal" then .fatalLevel
    else .warnLevel
  (act, Except.ok ())

/-- Log channel configured with level fatal, as the configuration format
of the repository permits. -/
def logFatalChannel : AlertChannel :=
  { ChannelType := "log", Name := "log-fatal", Enabled := true,
    Settings := [("level", "fatal")] }

/-- C10 counterexample: a log channel configured with level fatal makes
sendLog select the logrus Fatal method, which terminates the process
after logging, so an alert sent through this channel never returns
control to the caller of SendAlert. -/
theorem sendLog_fatal_terminates :
    logActionTerminates (sendLog logFatalChannel).1 = true := rfl

/-- C10 amended: for every log channel whose configured level is not the
string fatal, the selected logrus method returns control and sendLog
returns nil, so no such alert delivery terminates the process. -/
theorem sendLog_returns_unless_fatal (channel : AlertChannel)
    (h : lookupSetting channel.Settings "level" ≠ "fatal") :
    logActionTerminates (sendLog channel).1 = false
    ∧ (sendLog channel).2 = Except.ok () := by
  refine ⟨?_, rfl⟩
  simp only [sendLog]
  by_cases h0 : lookupSetting channel.Settings "level" == ""
  · simp [h0, logActionTerminates]
  · simp only [h0, if_false, Bool.false_eq_true]
    have hne : (lookupSetting channel.Settings "level" == "fatal") = false := by
      simpa using h
    by_cases h1 : lookupSetting channel.Settings "level" == "debug" <;>
      by_cases h2 : lookupSetting channel.Settings "level" == "info" <;>
        by_cases h3 : lookupSetting channel.Settings "level" == "warn" <;>
          by_cases h4 : lookupSetting channel.Settings "level" == "error" <;>
            simp [h0, h1, h2, h3, h4, hne, logActionTerminates]

/-- Witness for sendLog_returns_unless_fatal on a log channel configured
with level warn. -/
theorem sendLog_returns_unless_fatal_witness :
    logActionTerminates (sendLog ⟨"log", "log-warn", true, [("level", "warn")]⟩).1 = false
    ∧ (sendLog ⟨"log", "log-warn", true, [("level", "warn")]⟩).2 = Except.ok () :=
  sendLog_returns_unless_fatal ⟨"log", "log-warn", true, [("level", "warn")]⟩
    (by simp [lookupSetting])

end O11y
